import Mathlib

/-!
Verification development for the mcp-remote proxy (TypeScript sources under
src/).  The definitions below are a shallow embedding of src/src/permissions.ts,
src/src/auth.ts and the server connection handlers of src/src/mcp-remote.ts.
JavaScript strings are modelled by Lean String, Buffers by the String obtained
from Buffer.toString(), JSON.parse/JSON.stringify by an executable JSON model,
and nullable values by Option.
-/

set_option maxRecDepth 20000

namespace MCPProxy

/-- JSON values as produced by JavaScript JSON.parse.  A number keeps its
source lexeme (the exact characters of the literal); every number occurring in
the repository's protocol traffic is a small integer, for which the lexeme
coincides with what JSON.stringify prints back. -/
inductive Json where
  | null : Json
  | bool (b : Bool) : Json
  | num (raw : String) : Json
  | str (s : String) : Json
  | arr (elems : List Json) : Json
  | obj (fields : List (String × Json)) : Json
  deriving Repr

/-- Property lookup on a JavaScript value: only objects have (own) properties;
object keys are unique because parsing collapses duplicates (later value wins,
as JSON.parse does). -/
def Json.getField : Json → String → Option Json
  | .obj fields, k => (fields.find? (fun p => p.1 = k)).map Prod.snd
  | _, _ => none

/-- Insertion of a key/value pair into an object under construction, with the
JavaScript semantics for duplicate keys: an existing key keeps its position but
receives the new value. -/
def insertField (fields : List (String × Json)) (k : String) (v : Json) :
    List (String × Json) :=
  match fields with
  | [] => [(k, v)]
  | (k0, v0) :: rest =>
    if k0 = k then (k0, v) :: rest else (k0, v0) :: insertField rest k v

/-- Whitespace characters recognised by the JSON grammar (RFC 8259). -/
def isJsonWs (c : Char) : Bool :=
  c = ' ' || c = '\t' || c = '\n' || c = '\r'

/-- Whitespace characters removed by JavaScript String.prototype.trim and
skipped by the blank-line filter in parseMCPMessage. -/
def isJsWhitespace (c : Char) : Bool :=
  c = ' ' || c = '\t' || c = '\n' || c = '\r' || c = '\x0b' || c = '\x0c' ||
  c = '\u00a0' || c = '\u1680' || ('\u2000' ≤ c && c ≤ '\u200a') ||
  c = '\u2028' || c = '\u2029' || c = '\u202f' || c = '\u205f' ||
  c = '\u3000' || c = '\ufeff'

/-- Model of JavaScript String.prototype.trim. -/
def jsTrim (s : String) : String :=
  String.mk (((s.toList.dropWhile isJsWhitespace).reverse.dropWhile
    isJsWhitespace).reverse)

def skipWs : List Char → List Char
  | [] => []
  | c :: cs => if isJsonWs c then skipWs cs else c :: cs

def hexVal (c : Char) : Option Nat :=
  if '0' ≤ c ∧ c ≤ '9' then some (c.toNat - '0'.toNat)
  else if 'a' ≤ c ∧ c ≤ 'f' then some (c.toNat - 'a'.toNat + 10)
  else if 'A' ≤ c ∧ c ≤ 'F' then some (c.toNat - 'A'.toNat + 10)
  else none

/-- Body of a JSON string literal, after the opening quote.  Returns the
decoded string and the input following the closing quote.  Escape sequences
follow RFC 8259; a surrogate pair of \u escapes is combined into one code
point, while a lone surrogate escape (accepted by JavaScript, but not
representable as a Lean scalar value) is rejected — no input relevant to the
repository's protocol contains one. -/
def parseStringRest : List Char → Option (String × List Char)
  | [] => none
  | c :: cs =>
    if c = '"' then some ("", cs)
    else if c = '\\' then
      match cs with
      | [] => none
      | e :: cs2 =>
        if e = '"' ∨ e = '\\' ∨ e = '/' then
          (parseStringRest cs2).map (fun p => (String.singleton e ++ p.1, p.2))
        else if e = 'b' then
          (parseStringRest cs2).map (fun p => (String.singleton '\x08' ++ p.1, p.2))
        else if e = 'f' then
          (parseStringRest cs2).map (fun p => (String.singleton '\x0c' ++ p.1, p.2))
        else if e = 'n' then
          (parseStringRest cs2).map (fun p => (String.singleton '\n' ++ p.1, p.2))
        else if e = 'r' then
          (parseStringRest cs2).map (fun p => (String.singleton '\r' ++ p.1, p.2))
        else if e = 't' then
          (parseStringRest cs2).map (fun p => (String.singleton '\t' ++ p.1, p.2))
        else if e = 'u' then
          match cs2 with
          | h1 :: h2 :: h3 :: h4 :: cs3 =>
            match hexVal h1, hexVal h2, hexVal h3, hexVal h4 with
            | some a, some b, some c1, some d =>
              let n := ((a * 16 + b) * 16 + c1) * 16 + d
              if n < 0xd800 ∨ 0xdfff < n then
                (parseStringRest cs3).map
                  (fun p => (String.singleton (Char.ofNat n) ++ p.1, p.2))
              else if n < 0xdc00 then
                match cs3 with
                | '\\' :: 'u' :: g1 :: g2 :: g3 :: g4 :: cs4 =>
                  match hexVal g1, hexVal g2, hexVal g3, hexVal g4 with
                  | some a2, some b2, some c2, some d2 =>
                    let m := ((a2 * 16 + b2) * 16 + c2) * 16 + d2
                    if 0xdc00 ≤ m ∧ m ≤ 0xdfff then
                      let cp := 0x10000 + (n - 0xd800) * 0x400 + (m - 0xdc00)
                      (parseStringRest cs4).map
                        (fun p => (String.singleton (Char.ofNat cp) ++ p.1, p.2))
                    else none
                  | _, _, _, _ => none
                | _ => none
              else none
            | _, _, _, _ => none
          | _ => none
        else none
    else if c.toNat < 0x20 then none
    else (parseStringRest cs).map (fun p => (String.singleton c ++ p.1, p.2))

/-- Fractional part of a JSON number, possibly empty. -/
def parseFrac (cs : List Char) : Option (List Char × List Char) :=
  match cs with
  | '.' :: rest =>
    let p := rest.span Char.isDigit
    if p.1.isEmpty then none else some ('.' :: p.1, p.2)
  | _ => some ([], cs)

/-- Exponent part of a JSON number, possibly empty. -/
def parseExp (cs : List Char) : Option (List Char × List Char) :=
  match cs with
  | c :: rest =>
    if c = 'e' ∨ c = 'E' then
      let p :=
        match rest with
        | '+' :: r => (['+'], r)
        | '-' :: r => (['-'], r)
        | _ => (([] : List Char), rest)
      let q := p.2.span Char.isDigit
      if q.1.isEmpty then none else some (c :: (p.1 ++ q.1), q.2)
    else some ([], c :: rest)
  | [] => some ([], [])

/-- Lexeme of a JSON number (sign, integer part without leading zeros,
optional fraction, optional exponent). -/
def parseNumberLexeme (cs : List Char) : Option (String × List Char) :=
  let p :=
    match cs with
    | '-' :: rest => ((['-'] : List Char), rest)
    | _ => (([] : List Char), cs)
  match p.2 with
  | [] => none
  | c :: _ =>
    if ¬ c.isDigit then none
    else
      let q := p.2.span Char.isDigit
      if q.1.length > 1 ∧ q.1.head? = some '0' then none
      else
        match parseFrac q.2 with
        | none => none
        | some (fr, r1) =>
          match parseExp r1 with
          | none => none
          | some (ex, r2) => some (String.mk (p.1 ++ q.1 ++ fr ++ ex), r2)

mutual

/-- Recursive-descent JSON value parser (model of JSON.parse), with a fuel
argument so that all recursion is structural and kernel-reducible. -/
def parseValue : Nat → List Char → Option (Json × List Char)
  | 0, _ => none
  | fuel+1, cs =>
    match skipWs cs with
    | 'n' :: 'u' :: 'l' :: 'l' :: rest => some (.null, rest)
    | 't' :: 'r' :: 'u' :: 'e' :: rest => some (.bool true, rest)
    | 'f' :: 'a' :: 'l' :: 's' :: 'e' :: rest => some (.bool false, rest)
    | '"' :: rest => (parseStringRest rest).map (fun p => (.str p.1, p.2))
    | '[' :: rest => parseArrayRest fuel rest
    | '{' :: rest => parseObjRest fuel rest
    | cs2 => (parseNumberLexeme cs2).map (fun p => (.num p.1, p.2))

def parseArrayRest : Nat → List Char → Option (Json × List Char)
  | 0, _ => none
  | fuel+1, cs =>
    match skipWs cs with
    | ']' :: rest => some (.arr [], rest)
    | cs2 =>
      match parseValue fuel cs2 with
      | none => none
      | some (v, rest) => parseArrayTail fuel [v] rest

def parseArrayTail : Nat → List Json → List Char → Option (Json × List Char)
  | 0, _, _ => none
  | fuel+1, acc, cs =>
    match skipWs cs with
    | ',' :: rest =>
      match parseValue fuel rest with
      | none => none
      | some (v, rest2) => parseArrayTail fuel (acc ++ [v]) rest2
    | ']' :: rest => some (.arr acc, rest)
    | _ => none

def parseObjRest : Nat → List Char → Option (Json × List Char)
  | 0, _ => none
  | fuel+1, cs =>
    match skipWs cs with
    | '}' :: rest => some (.obj [], rest)
    | '"' :: rest =>
      match parseStringRest rest with
      | none => none
      | some (k, rest2) =>
        match skipWs rest2 with
        | ':' :: rest3 =>
          match parseValue fuel rest3 with
          | none => none
          | some (v, rest4) => parseObjTail fuel (insertField [] k v) rest4
        | _ => none
    | _ => none

def parseObjTail : Nat → List (String × Json) → List Char →
    Option (Json × List Char)
  | 0, _, _ => none
  | fuel+1, acc, cs =>
    match skipWs cs with
    | ',' :: rest =>
      match skipWs rest with
      | '"' :: rest2 =>
        match parseStringRest rest2 with
        | none => none
        | some (k, rest3) =>
          match skipWs rest3 with
          | ':' :: rest4 =>
            match parseValue fuel rest4 with
            | none => none
            | some (v, rest5) => parseObjTail fuel (insertField acc k v) rest5
          | _ => none
      | _ => none
    | '}' :: rest => some (.obj acc, rest)
    | _ => none

end

/-- Model of JSON.parse on a character list: a single JSON value surrounded by
optional whitespace, nothing else.  The fuel bound 2*length+2 exceeds the
maximum possible recursion depth, so it never truncates a parse. -/
def jsonParseChars (cs : List Char) : Option Json :=
  match parseValue (2 * cs.length + 2) cs with
  | some (j, rest) => if (skipWs rest).isEmpty then some j else none
  | none => none

/-- Model of JSON.parse on a string. -/
def jsonParse (s : String) : Option Json :=
  jsonParseChars s.toList

def hexDigitChar (n : Nat) : Char :=
  if n < 10 then Char.ofNat ('0'.toNat + n) else Char.ofNat ('a'.toNat + n - 10)

/-- Escaping of one character inside a JSON string literal, exactly as
JSON.stringify does it (it leaves non-ASCII characters unescaped). -/
def escapeChar (c : Char) : String :=
  if c = '"' then "\\\""
  else if c = '\\' then "\\\\"
  else if c = '\x08' then "\\b"
  else if c = '\t' then "\\t"
  else if c = '\n' then "\\n"
  else if c = '\x0c' then "\\f"
  else if c = '\r' then "\\r"
  else if c.toNat < 0x20 then
    "\\u00" ++ String.singleton (hexDigitChar (c.toNat / 16)) ++
      String.singleton (hexDigitChar (c.toNat % 16))
  else String.singleton c

def stringifyString (s : String) : String :=
  "\"" ++ String.join (s.toList.map escapeChar) ++ "\""

mutual

/-- Model of JSON.stringify with no spacing: object fields appear in insertion
order, numbers print their stored lexeme. -/
def stringify : Json → String
  | .null => "null"
  | .bool true => "true"
  | .bool false => "false"
  | .num raw => raw
  | .str s => stringifyString s
  | .arr xs => "[" ++ stringifyElems xs ++ "]"
  | .obj fs => "\x7b" ++ stringifyFields fs ++ "\x7d"

def stringifyElems : List Json → String
  | [] => ""
  | [x] => stringify x
  | x :: y :: rest => stringify x ++ "," ++ stringifyElems (y :: rest)

def stringifyFields : List (String × Json) → String
  | [] => ""
  | [(k, v)] => stringifyString k ++ ":" ++ stringify v
  | (k, v) :: f :: rest =>
    stringifyString k ++ ":" ++ stringify v ++ "," ++ stringifyFields (f :: rest)

end

/-! Embedding of src/src/permissions.ts. -/

structure RolePermissions where
  allowedMethods : List String
  blockedMethods : List String
  deriving Repr, DecidableEq

/-- Permissions part of the parsed configuration file: a record mapping role
names to their permissions, modelled as an association list with unique keys
(JavaScript object property lookup). -/
structure PermissionsConfig where
  permissions : List (String × RolePermissions)
  deriving Repr, DecidableEq

def lookupRole (c : PermissionsConfig) (role : String) : Option RolePermissions :=
  (c.permissions.find? (fun p => p.1 = role)).map Prod.snd

/-- Loop body of isMethodAllowed: scan the roles in the given order; a role
absent from the config is skipped; a block by a scanned role returns false
immediately; an allow by a scanned role returns true immediately. -/
def scanRoles (method : String) (c : PermissionsConfig) : List String → Bool
  | [] => false
  | role :: rest =>
    match lookupRole c role with
    | none => scanRoles method c rest
    | some rolePerms =>
      if rolePerms.blockedMethods.contains method ||
          rolePerms.blockedMethods.contains "*" then false
      else if rolePerms.allowedMethods.contains method ||
          rolePerms.allowedMethods.contains "*" then true
      else scanRoles method c rest

/-- Model of isMethodAllowed from src/src/permissions.ts (lines 51-70). -/
def isMethodAllowed (method : String) (userRoles : List String)
    (permissionsConfig : PermissionsConfig) : Bool :=
  if userRoles.isEmpty then false
  else scanRoles method permissionsConfig userRoles

/-- JavaScript strict equality between an arbitrary value and a string: true
only for the identical string. -/
def jsonStrictEqStr (v : Json) (s : String) : Bool :=
  match v with
  | .str t => t = s
  | _ => false

/-- Generalisation of the scan to a method of arbitrary JSON type: the
includes(method) membership tests use strict equality, while the "*" test
still compares the literal string "*". -/
def scanRolesJson (method : Json) (c : PermissionsConfig) : List String → Bool
  | [] => false
  | role :: rest =>
    match lookupRole c role with
    | none => scanRolesJson method c rest
    | some rolePerms =>
      if rolePerms.blockedMethods.any (fun b => jsonStrictEqStr method b) ||
          rolePerms.blockedMethods.contains "*" then false
      else if rolePerms.allowedMethods.any (fun a => jsonStrictEqStr method a) ||
          rolePerms.allowedMethods.contains "*" then true
      else scanRolesJson method c rest

/-- isMethodAllowed as invoked from createMessageFilter, where the method
field extracted from the message can be any JSON value. -/
def isMethodAllowedJson (method : Json) (userRoles : List String)
    (permissionsConfig : PermissionsConfig) : Bool :=
  if userRoles.isEmpty then false
  else scanRolesJson method permissionsConfig userRoles

/-- JavaScript truthiness of a parsed JSON value.  A numeric lexeme denotes
zero exactly when all of its mantissa digits are 0. -/
def numLexemeIsZero (raw : String) : Bool :=
  (raw.toList.takeWhile (fun c => c ≠ 'e' ∧ c ≠ 'E')).all
    (fun c => ¬ c.isDigit ∨ c = '0')

def jsTruthy : Json → Bool
  | .null => false
  | .bool b => b
  | .num raw => ¬ numLexemeIsZero raw
  | .str s => s ≠ ""
  | .arr _ => true
  | .obj _ => true

def optTruthy : Option Json → Bool
  | none => false
  | some v => jsTruthy v

mutual

def jsDisplayElems : List Json → String
  | [] => ""
  | [x] => jsDisplayArrElem x
  | x :: y :: rest => jsDisplayArrElem x ++ "," ++ jsDisplayElems (y :: rest)

/-- Inside Array.prototype.toString, a null element prints as the empty
string, every other element by its usual string coercion. -/
def jsDisplayArrElem : Json → String
  | .null => ""
  | .bool true => "true"
  | .bool false => "false"
  | .num raw => raw
  | .str s => s
  | .arr xs => jsDisplayElems xs
  | .obj _ => "[object Object]"

end

/-- JavaScript string coercion as used by template literals, for the parsed
JSON values that can occur here.  A number prints its lexeme (identical to the
JavaScript output for the integer literals of this protocol). -/
def jsDisplay : Json → String
  | .null => "null"
  | .bool true => "true"
  | .bool false => "false"
  | .num raw => raw
  | .str s => s
  | .arr xs => jsDisplayElems xs
  | .obj _ => "[object Object]"

/-- Model of createErrorResponse from src/src/permissions.ts (lines 72-82).
The id argument is the value of the id field of the offending message (absent
when the message had none); the source computes id || null, so a falsy id is
replaced by null before serialisation. -/
def createErrorResponse (id : Option Json) (message : String) : String :=
  let idVal : Json :=
    match id with
    | some v => if jsTruthy v then v else Json.null
    | none => Json.null
  stringify (Json.obj
    [("jsonrpc", .str "2.0"),
     ("id", idVal),
     ("error", .obj
       [("code", .num "-32601"),
        ("message", .str ("Method not allowed: " ++ message))])]) ++ "\n"

/-- Model of the per-line step of parseMCPMessage: JSON.parse the line, keep
the message when its jsonrpc field is the string "2.0".  A line that fails to
parse, parses to a non-object, or has a different jsonrpc field is skipped
(in the source a parse failure and the property access on null both land in
the catch that continues with the next line). -/
def parseLine20 (line : List Char) : Option Json :=
  match jsonParseChars line with
  | some j =>
    match j.getField "jsonrpc" with
    | some (.str s) => if s = "2.0" then some j else none
    | _ => none
  | none => none

/-- Splitting on the newline character, with empty segments preserved, as
JavaScript String.prototype.split produces. -/
def splitNewlines (cs : List Char) : List (List Char) :=
  match cs with
  | [] => [[]]
  | c :: rest =>
    if c = '\n' then [] :: splitNewlines rest
    else
      match splitNewlines rest with
      | [] => [[c]]
      | l :: ls => (c :: l) :: ls

/-- Lines of a chunk that survive the blank filter (line.trim() truthy). -/
def mcpLines (data : String) : List (List Char) :=
  (splitNewlines data.toList).filter (fun l => l.any (fun c => ¬ isJsWhitespace c))

/-- Model of parseMCPMessage from src/src/permissions.ts (lines 32-49): the
first nonblank line that parses as JSON with jsonrpc equal to "2.0". -/
def parseMCPMessage (data : String) : Option Json :=
  (mcpLines data).findSome? parseLine20

/-- Result record of the function returned by createMessageFilter.  Fields the
source leaves absent are modelled as none. -/
structure FilterResult where
  allowed : Bool
  response : Option String := none
  filteredData : Option String := none
  deriving Repr, DecidableEq

/-- Model of createMessageFilter from src/src/permissions.ts (lines 84-102),
applied to an inbound chunk (Buffer.toString() of the data argument). -/
def createMessageFilter (userRoles : List String)
    (permissionsConfig : Option PermissionsConfig) (data : String) : FilterResult :=
  match permissionsConfig with
  | none => { allowed := true, filteredData := some data }
  | some cfg =>
    match parseMCPMessage data with
    | none => { allowed := true, filteredData := some data }
    | some message =>
      let m := message.getField "method"
      if ¬ optTruthy m then { allowed := true, filteredData := some data }
      else
        let mv := m.getD Json.null
        if ¬ isMethodAllowedJson mv userRoles cfg then
          { allowed := false,
            response := some (createErrorResponse (message.getField "id")
              ("Access denied for method \x27" ++ jsDisplay mv ++ "\x27")) }
        else { allowed := true, filteredData := some data }

/-- Model of loadPermissionsConfig from src/src/permissions.ts (lines 23-30).
The file system read is modelled by its outcome: none when reading the path
throws (missing file), some contents otherwise.  A read failure or a JSON
parse failure yields null; any successfully parsed JSON document is returned
unvalidated (the source casts it without checking its shape). -/
def loadPermissionsConfig (fileContents : Option String) : Option Json :=
  match fileContents with
  | none => none
  | some contents => jsonParse contents

/-- Embedding of src/src/auth.ts hasRequiredRoles (lines 61-66 of auth.ts). -/
def hasRequiredRoles (userRoles : Option (List String))
    (requiredRoles : List String) : Bool :=
  if requiredRoles.isEmpty then true
  else
    match userRoles with
    | none => false
    | some ur =>
      if ur.isEmpty then false
      else requiredRoles.any (fun role => ur.contains role)

/-! Embedding of the server half of src/src/mcp-remote.ts: the startup
permissions load, the authentication timers, and the per-connection message
handling of the TCP and WebSocket adapters. -/

/-- Outcome of the permissions-loading fragment of startServer. -/
inductive StartupResult where
  | exited (code : Nat)
  | running (permissionsConfig : Option Json)
  deriving Repr

/-- Model of startServer lines 24-31: when a permissions path is configured
and loadPermissionsConfig returns null, the process exits with code 1; when no
path is configured the server runs with a null (open) config. -/
def startupLoadPermissions (permissionsConfigPathGiven : Bool)
    (fileContents : Option String) : StartupResult :=
  if permissionsConfigPathGiven then
    match loadPermissionsConfig fileContents with
    | none => .exited 1
    | some cfg => .running (some cfg)
  else .running none

/-- Decoded JWT claims relevant to the server handlers. -/
structure JWTPayload where
  user : Option String
  roles : Option (List String)
  deriving Repr, DecidableEq

/-- Wire text of the WebSocket authentication-timeout signal
(mcp-remote.ts lines 232-239). -/
def authTimeoutMessage : String :=
  stringify (.obj
    [("jsonrpc", .str "2.0"),
     ("error", .obj
       [("code", .num "-32003"),
        ("message", .str "Authentication timeout"),
        ("data", .obj [("timeout", .str "10 seconds")])])])

/-- Wire text of the authentication-failure signal (lines 289-296). -/
def authFailedMessage : String :=
  stringify (.obj
    [("jsonrpc", .str "2.0"),
     ("error", .obj
       [("code", .num "-32002"),
        ("message", .str "Authentication failed"),
        ("data", .obj [("reason", .str "Invalid token")])])])

/-- Wire text of the insufficient-roles signal (lines 253-260). -/
def insufficientRolesMessage (required provided : List String) : String :=
  stringify (.obj
    [("jsonrpc", .str "2.0"),
     ("error", .obj
       [("code", .num "-32001"),
        ("message", .str "Insufficient roles"),
        ("data", .obj
          [("required", .arr (required.map .str)),
           ("provided", .arr (provided.map .str))])])])

/-- Wire text of the authentication-success signal (lines 268-275).  When the
payload has no user claim, JSON.stringify drops the undefined-valued key. -/
def authSuccessMessage (payload : JWTPayload) : String :=
  stringify (.obj
    [("jsonrpc", .str "2.0"),
     ("result", .obj
       ([("authenticated", .bool true)] ++
        (match payload.user with
         | some u => [("user", .str u)]
         | none => []) ++
        [("roles", .arr ((payload.roles.getD []).map .str))]))])

/-- One-shot timers armed by a connection handler at accept time, with their
delay in milliseconds. -/
inductive TimerAction where
  | destroySilently
  | authTimeoutClose
  deriving Repr, DecidableEq

/-- Timers armed by the TCP connection handler (lines 85-92): only the idle
timeout socket.setTimeout(300000), whose handler destroys the socket without
sending anything.  For a connection that never receives data the idle timer
behaves as a one-shot at 300000 ms.  No authentication timer exists on this
path, whether or not a JWT secret is configured. -/
def tcpConnectTimers (_jwtSecretSet : Bool) : List (Nat × TimerAction) :=
  [(300000, .destroySilently)]

/-- Timers armed by the WebSocket connection handler (lines 228-241): the
10000 ms authentication timeout, armed only when a JWT secret is configured;
its handler sends the -32003 signal and closes the socket. -/
def wsConnectTimers (jwtSecretSet : Bool) : List (Nat × TimerAction) :=
  if jwtSecretSet then [(10000, .authTimeoutClose)] else []

/-- Observable fate of a connection that never sends any bytes. -/
structure NoCredentialOutcome where
  closed : Bool
  sent : List String
  deriving Repr, DecidableEq

def runTimerAction (st : NoCredentialOutcome) (a : TimerAction) :
    NoCredentialOutcome :=
  match a with
  | .destroySilently => { st with closed := true }
  | .authTimeoutClose =>
    { closed := true, sent := st.sent ++ [authTimeoutMessage] }

/-- State of a connection t milliseconds after accept when no credential (and
no other data) ever arrives: exactly the timers whose delay has elapsed have
fired, in delay order. -/
def noCredentialOutcome (timers : List (Nat × TimerAction)) (t : Nat) :
    NoCredentialOutcome :=
  ((timers.filter (fun p => decide (p.1 ≤ t))).map Prod.snd).foldl
    runTimerAction { closed := false, sent := [] }

/-- Per-connection state of the WebSocket handler with a JWT secret
configured (lines 208-341): the isAuthenticated flag, whether the
authentication timer is still pending, whether the socket has been closed by
the handler, and the roles captured by the message filter once constructed. -/
structure WsSession where
  isAuthenticated : Bool
  authTimerPending : Bool
  closed : Bool
  filterRoles : Option (List String)
  deriving Repr, DecidableEq

/-- Session state right after connection accept (jwtSecret configured). -/
def wsInitialSession : WsSession :=
  { isAuthenticated := false
    authTimerPending := true
    closed := false
    filterRoles := none }

/-- Effects a handler can perform towards the peer or the subprocess. -/
inductive WsEffect where
  | send (msg : String)
  | writeStdin (data : String)
  | close
  deriving Repr, DecidableEq

/-- Model of the WebSocket message handler (lines 244-317).  Before
authentication the message is the credential: the auth timer is cleared, the
trimmed token is verified (verify abstracts verifyJWTWithPayload with the
server secret), required roles are checked when configured, and on success the
message filter is constructed over the payload roles.  After authentication
every message runs through createMessageFilter; an allowed result is forwarded
to the subprocess stdin and a denied one sends the synthesized response back,
with no change to the session state. -/
def wsMessageStep (verify : String → Option JWTPayload)
    (requiredRoles : Option (List String))
    (permissionsConfig : Option PermissionsConfig)
    (s : WsSession) (msg : String) : WsSession × List WsEffect :=
  if s.isAuthenticated then
    let result := createMessageFilter (s.filterRoles.getD []) permissionsConfig msg
    if result.allowed && result.filteredData.isSome then
      (s, [.writeStdin (result.filteredData.getD "")])
    else
      match result.response with
      | some r => (s, [.send r])
      | none => (s, [])
  else
    let s1 := { s with authTimerPending := false }
    match verify (jsTrim msg) with
    | some payload =>
      match requiredRoles with
      | some req =>
        if ¬ hasRequiredRoles payload.roles req then
          ({ s1 with closed := true },
           [.send (insufficientRolesMessage req (payload.roles.getD [])), .close])
        else
          ({ s1 with
              isAuthenticated := true
              filterRoles := some (payload.roles.getD []) },
           [.send (authSuccessMessage payload)])
      | none =>
        ({ s1 with
            isAuthenticated := true
            filterRoles := some (payload.roles.getD []) },
         [.send (authSuccessMessage payload)])
    | none =>
      ({ s1 with closed := true }, [.send authFailedMessage, .close])

/-- Model of the pending authentication timer firing (lines 230-241): only
possible while it has not been cleared by a first message. -/
def wsTimerFire (s : WsSession) : WsSession × List WsEffect :=
  if s.authTimerPending then
    ({ s with authTimerPending := false, closed := true },
     [.send authTimeoutMessage, .close])
  else (s, [])

/-- State visible to the authenticated-phase TCP data handler. -/
structure TcpAuthedSession where
  closed : Bool
  deriving Repr, DecidableEq

/-- Model of the authenticated TCP data handler (lines 136-154): every chunk
runs through the session's message filter; an allowed chunk goes to the
subprocess stdin, a denied one answers with the synthesized response on the
socket.  The deny branch only writes — the socket is destroyed only if that
write itself throws, an environment failure outside this model — so the
session state is unchanged either way. -/
def tcpAuthedDataStep (roles : List String)
    (permissionsConfig : Option PermissionsConfig)
    (s : TcpAuthedSession) (data : String) : TcpAuthedSession × List WsEffect :=
  let result := createMessageFilter roles permissionsConfig data
  if result.allowed && result.filteredData.isSome then
    (s, [.writeStdin (result.filteredData.getD "")])
  else
    match result.response with
    | some r => (s, [.send r])
    | none => (s, [])

/-! Concrete protocol data used by the specification's end-to-end scenario
(spec.md section 8) and by the witnesses below. -/

/-- Permissions configuration of the section 8 scenario: admin allows all
methods, user may call tools/list and is blocked from tools/call. -/
def scenarioConfig : PermissionsConfig :=
  ⟨[("admin", ⟨["*"], []⟩), ("user", ⟨["tools/list"], ["tools/call"]⟩)]⟩

def chunkCall : String :=
  "\x7b\"jsonrpc\":\"2.0\",\"id\":1,\"method\":\"tools/call\",\"params\":\x7b\x7d\x7d"

def chunkList : String :=
  "\x7b\"jsonrpc\":\"2.0\",\"id\":2,\"method\":\"tools/list\"\x7d"

/-- Message chunk framed as jsonrpc 1.0 but naming a blocked method. -/
def chunk10 : String :=
  "\x7b\"jsonrpc\":\"1.0\",\"id\":1,\"method\":\"tools/call\",\"params\":\x7b\x7d\x7d"

/-- JSON-RPC batch array wrapping a blocked request. -/
def chunkBatch : String :=
  "[\x7b\"jsonrpc\":\"2.0\",\"id\":1,\"method\":\"tools/call\",\"params\":\x7b\x7d\x7d]"

/-- Valid jsonrpc 2.0 message whose method field is the empty string. -/
def chunkEmptyMethod : String :=
  "\x7b\"jsonrpc\":\"2.0\",\"id\":1,\"method\":\"\"\x7d"

/-- Message carrying a result and no method field. -/
def chunkResultOnly : String :=
  "\x7b\"jsonrpc\":\"2.0\",\"id\":1,\"result\":\"success\"\x7d"

def msgCall : Json :=
  .obj [("jsonrpc", .str "2.0"), ("id", .num "1"),
        ("method", .str "tools/call"), ("params", .obj [])]

def msgList : Json :=
  .obj [("jsonrpc", .str "2.0"), ("id", .num "2"), ("method", .str "tools/list")]

/-- Wire bytes of the expected denial for the section 8 scenario. -/
def deniedResponse : String :=
  "\x7b\"jsonrpc\":\"2.0\",\"id\":1,\"error\":\x7b\"code\":-32601,\"message\":\"Method not allowed: Access denied for method \x27tools/call\x27\"\x7d\x7d\n"

/-- Parsed form of deniedResponse, for the deep-equality check. -/
def deniedResponseObj : Json :=
  .obj [("jsonrpc", .str "2.0"), ("id", .num "1"),
        ("error", .obj
          [("code", .num "-32601"),
           ("message",
            .str "Method not allowed: Access denied for method \x27tools/call\x27")])]

/-! Helper lemmas shared by the claim theorems. -/

/-- Characterisation of List.findSome?: it returns some b exactly when the
list splits as a prefix on which f fails, then a first element on which f
returns b. -/
theorem findSome?_eq_some_iff {α β : Type} (f : α → Option β) (b : β) :
    ∀ l : List α, l.findSome? f = some b ↔
      ∃ l1 x l2, l = l1 ++ x :: l2 ∧ (∀ y ∈ l1, f y = none) ∧ f x = some b
  | [] => by
    constructor
    · intro h; simp [List.findSome?_nil] at h
    · rintro ⟨l1, x, l2, heq, -, -⟩
      exact absurd heq (by simp)
  | a :: l => by
    rw [List.findSome?_cons]
    cases hfa : f a with
    | some v =>
      constructor
      · intro h
        refine ⟨[], a, l, rfl, by simp, ?_⟩
        rw [hfa]; exact h
      · rintro ⟨l1, x, l2, heq, hnone, hx⟩
        cases l1 with
        | nil =>
          obtain ⟨rfl, rfl⟩ := by simpa using heq
          rw [hfa] at hx; exact hx
        | cons a1 l1 =>
          obtain ⟨rfl, -⟩ := by simpa using heq
          exact absurd (hnone a (by simp)) (by simp [hfa])
    | none =>
      rw [findSome?_eq_some_iff f b l]
      constructor
      · rintro ⟨l1, x, l2, heq, hnone, hx⟩
        refine ⟨a :: l1, x, l2, by simp [heq], ?_, hx⟩
        intro y hy
        rcases List.mem_cons.mp hy with rfl | hy2
        · exact hfa
        · exact hnone y hy2
      · rintro ⟨l1, x, l2, heq, hnone, hx⟩
        cases l1 with
        | nil =>
          obtain ⟨rfl, rfl⟩ := by simpa using heq
          rw [hfa] at hx; cases hx
        | cons a1 l1 =>
          obtain ⟨rfl, htl⟩ := by simpa using heq
          exact ⟨l1, x, l2, htl, fun y hy => hnone y (by simp [hy]), hx⟩

/-- On a string-valued method the generalised membership scan coincides with
the string scan of isMethodAllowed. -/
theorem any_strictEqStr (s : String) (l : List String) :
    l.any (fun b => jsonStrictEqStr (.str s) b) = l.contains s := by
  by_cases hm : s ∈ l
  · have h1 : l.any (fun b => jsonStrictEqStr (.str s) b) = true := by
      simp only [List.any_eq_true]
      exact ⟨s, hm, by simp [jsonStrictEqStr]⟩
    have h2 : l.contains s = true := by simpa using hm
    rw [h1, h2]
  · have h1 : l.any (fun b => jsonStrictEqStr (.str s) b) = false := by
      simp only [List.any_eq_false]
      intro x hx
      simp only [jsonStrictEqStr]
      intro heq
      exact hm (by simp_all)
    have h2 : l.contains s = false := by simpa using hm
    rw [h1, h2]

theorem scanRolesJson_str (s : String) (c : PermissionsConfig) :
    ∀ l : List String, scanRolesJson (.str s) c l = scanRoles s c l
  | [] => rfl
  | role :: rest => by
    unfold scanRolesJson scanRoles
    cases lookupRole c role with
    | none => exact scanRolesJson_str s c rest
    | some perms =>
      simp [any_strictEqStr, scanRolesJson_str s c rest]

theorem isMethodAllowedJson_str (s : String) (rs : List String)
    (c : PermissionsConfig) :
    isMethodAllowedJson (.str s) rs c = isMethodAllowed s rs c := by
  unfold isMethodAllowedJson isMethodAllowed
  by_cases h : rs.isEmpty <;> simp [h, scanRolesJson_str]

/-- Every filter result is one of exactly two shapes: the whole chunk passed
through unmodified, or the whole chunk replaced by a synthesized response. -/
theorem filter_shape (rs : List String) (cfg : Option PermissionsConfig)
    (d : String) :
    createMessageFilter rs cfg d = { allowed := true, filteredData := some d }
    ∨ ∃ r, createMessageFilter rs cfg d = { allowed := false, response := some r } := by
  cases cfg with
  | none => exact Or.inl rfl
  | some c =>
    cases hp : parseMCPMessage d with
    | none => exact Or.inl (by simp [createMessageFilter, hp])
    | some m =>
      by_cases ht : optTruthy (m.getField "method") = true
      · by_cases hall :
            isMethodAllowedJson ((m.getField "method").getD .null) rs c = true
        · exact Or.inl (by simp [createMessageFilter, hp, ht, hall])
        · refine Or.inr ⟨createErrorResponse (m.getField "id")
            ("Access denied for method \x27" ++
              jsDisplay ((m.getField "method").getD Json.null) ++ "\x27"), ?_⟩
          simp [createMessageFilter, hp, ht, hall]
      · exact Or.inl (by simp [createMessageFilter, hp, ht])

/-! Claim C1. -/

/-- Reference scan written from the specification's wording for claim C1:
roles are scanned in the caller-supplied order; a role absent from the config
is skipped; a scanned role whose blockedMethods contains the method or "*"
gives false immediately; a scanned role whose allowedMethods contains the
method or "*" gives true immediately; a role mentioning the method in neither
set passes control to the next role; false when the scan ends. -/
def scanRolesSpec (method : String) (c : PermissionsConfig) : List String → Bool
  | [] => false
  | role :: rest =>
    match lookupRole c role with
    | none => scanRolesSpec method c rest
    | some rolePerms =>
      if rolePerms.blockedMethods.contains method ||
          rolePerms.blockedMethods.contains "*" then false
      else if rolePerms.allowedMethods.contains method ||
          rolePerms.allowedMethods.contains "*" then true
      else scanRolesSpec method c rest

/-- Reference algorithm of claim C1: an empty role list denies, otherwise the
ordered scan decides. -/
def isMethodAllowedSpec (method : String) (userRoles : List String)
    (c : PermissionsConfig) : Bool :=
  match userRoles with
  | [] => false
  | rs => scanRolesSpec method c rs

theorem scanRoles_eq_spec (m : String) (c : PermissionsConfig) :
    ∀ l : List String, scanRoles m c l = scanRolesSpec m c l
  | [] => rfl
  | role :: rest => by
    unfold scanRoles scanRolesSpec
    cases lookupRole c role with
    | none => exact scanRoles_eq_spec m c rest
    | some perms => simp [scanRoles_eq_spec m c rest]

/-- Claim C1: isMethodAllowed equals the reference algorithm (empty roles
deny; ordered role-by-role scan; absent role skipped; per-role block-first
short-circuit; false at scan end), and on the section 8 config with roles
user then admin, tools/call is denied while tools/list is allowed. -/
theorem isMethodAllowed_matches_reference :
    (∀ (m : String) (rs : List String) (c : PermissionsConfig),
        isMethodAllowed m rs c = isMethodAllowedSpec m rs c)
    ∧ isMethodAllowed "tools/call" ["user", "admin"] scenarioConfig = false
    ∧ isMethodAllowed "tools/list" ["user", "admin"] scenarioConfig = true := by
  refine ⟨?_, by rfl, by rfl⟩
  intro m rs c
  cases rs with
  | nil => rfl
  | cons r rest =>
    unfold isMethodAllowed isMethodAllowedSpec
    simp [scanRoles_eq_spec]

/-! Claim C7. -/

/-- Claim C7: hasRequiredRoles is true iff the required list is empty or some
required role is among the user roles; in particular it is false whenever the
required list is non-empty and the user roles are absent or empty. -/
theorem hasRequiredRoles_spec :
    ∀ (userRoles : Option (List String)) (requiredRoles : List String),
      hasRequiredRoles userRoles requiredRoles = true ↔
        (requiredRoles = [] ∨
          ∃ r ∈ requiredRoles, ∃ ur, userRoles = some ur ∧ r ∈ ur) := by
  intro ur rr
  unfold hasRequiredRoles
  cases rr with
  | nil => simp
  | cons r0 rr0 =>
    cases ur with
    | none => simp
    | some u =>
      cases u with
      | nil => simp
      | cons u0 us => simp [List.any_eq_true]

/-! Claim C3. -/

/-- Claim C3: for a fixed role list and config, the filter's allow/deny
decision and its synthesized response are a function of parseMCPMessage
alone; every result either forwards the whole chunk unmodified or replaces
the whole chunk by a response (never a split); and parseMCPMessage returns
exactly the first nonblank line that parses as JSON with jsonrpc "2.0",
skipping every earlier line on which that parse fails. -/
theorem filter_first_message_decides :
    ∀ (rs : List String) (cfg : Option PermissionsConfig) (d d2 : String),
      parseMCPMessage d = parseMCPMessage d2 →
      ((createMessageFilter rs cfg d).allowed =
          (createMessageFilter rs cfg d2).allowed
        ∧ (createMessageFilter rs cfg d).response =
          (createMessageFilter rs cfg d2).response)
      ∧ (createMessageFilter rs cfg d = { allowed := true, filteredData := some d }
          ∨ ∃ r, createMessageFilter rs cfg d =
              { allowed := false, response := some r })
      ∧ (∀ m, parseMCPMessage d = some m ↔
          ∃ l1 line l2, mcpLines d = l1 ++ line :: l2
            ∧ (∀ y ∈ l1, parseLine20 y = none) ∧ parseLine20 line = some m) := by
  intro rs cfg d d2 h
  refine ⟨?_, filter_shape rs cfg d, ?_⟩
  · cases cfg with
    | none => exact ⟨rfl, rfl⟩
    | some c =>
      cases hp : parseMCPMessage d2 with
      | none =>
        have hd : parseMCPMessage d = none := h.trans hp
        constructor <;> simp [createMessageFilter, hd, hp]
      | some m =>
        have hd : parseMCPMessage d = some m := h.trans hp
        by_cases ht : optTruthy (m.getField "method") = true
        · by_cases hall :
              isMethodAllowedJson ((m.getField "method").getD .null) rs c = true
          · constructor <;> simp [createMessageFilter, hd, hp, ht, hall]
          · constructor <;> simp [createMessageFilter, hd, hp, ht, hall]
        · constructor <;> simp [createMessageFilter, hd, hp, ht]
  · intro m
    exact findSome?_eq_some_iff parseLine20 m (mcpLines d)

/-- Witness for claim C3 at the section 8 scenario chunk. -/
theorem filter_first_message_decides_witness :
    createMessageFilter ["user"] (some scenarioConfig) chunkCall =
      { allowed := true, filteredData := some chunkCall }
    ∨ ∃ r, createMessageFilter ["user"] (some scenarioConfig) chunkCall =
      { allowed := false, response := some r } :=
  (filter_first_message_decides ["user"] (some scenarioConfig)
    chunkCall chunkCall rfl).2.1

/-! Claim C5. -/

/-- Message carrying a result and no method field, parsed. -/
def msgResultOnly : Json :=
  .obj [("jsonrpc", .str "2.0"), ("id", .num "1"), ("result", .str "success")]

/-- Claim C5: with a null config the filter passes every chunk through
unchanged; with a present config it passes through unchanged every chunk that
does not parse and every chunk whose first valid message has no method
field. -/
theorem filter_passthrough_cases :
    (∀ (rs : List String) (d : String),
        createMessageFilter rs none d =
          { allowed := true, filteredData := some d })
    ∧ (∀ (rs : List String) (cfg : PermissionsConfig) (d : String),
        parseMCPMessage d = none →
        createMessageFilter rs (some cfg) d =
          { allowed := true, filteredData := some d })
    ∧ (∀ (rs : List String) (cfg : PermissionsConfig) (d : String) (m : Json),
        parseMCPMessage d = some m → m.getField "method" = none →
        createMessageFilter rs (some cfg) d =
          { allowed := true, filteredData := some d }) := by
  refine ⟨fun rs d => rfl, ?_, ?_⟩
  · intro rs cfg d h
    simp [createMessageFilter, h]
  · intro rs cfg d m hp hm
    simp [createMessageFilter, hp, hm, optTruthy]

/-- Witness for claim C5: an unparseable chunk and a method-less result
message both pass through unchanged under the section 8 config. -/
theorem filter_passthrough_cases_witness :
    createMessageFilter ["user"] (some scenarioConfig) "not valid json" =
      { allowed := true, filteredData := some "not valid json" }
    ∧ createMessageFilter ["user"] (some scenarioConfig) chunkResultOnly =
      { allowed := true, filteredData := some chunkResultOnly } :=
  ⟨filter_passthrough_cases.2.1 ["user"] scenarioConfig "not valid json" rfl,
   filter_passthrough_cases.2.2 ["user"] scenarioConfig chunkResultOnly
     msgResultOnly rfl rfl⟩

/-! Claim C2. -/

/-- Counterexample to claim C2 as stated: the chunk whose first valid message
carries the method field "" (a method string) is let through unchanged even
though isMethodAllowed("") is false for the session roles, because the source
tests the method field for truthiness and the empty string is falsy.  So the
universal statement fails at the method string "". -/
theorem filter_empty_method_counterexample :
    parseMCPMessage chunkEmptyMethod =
      some (Json.obj
        [("jsonrpc", .str "2.0"), ("id", .num "1"), ("method", .str "")])
    ∧ isMethodAllowed "" ["user"] scenarioConfig = false
    ∧ createMessageFilter ["user"] (some scenarioConfig) chunkEmptyMethod =
      { allowed := true, filteredData := some chunkEmptyMethod } :=
  ⟨rfl, rfl, rfl⟩

/-- Claim C2 (amended to non-empty method strings): when the first valid
message of a chunk carries a non-empty string method, an allowed method
passes the original chunk through byte-identical, and a disallowed one yields
allowed false with no forwarded bytes and exactly the
createErrorResponse(id, "Access denied for method m") response. -/
theorem filter_method_decision :
    ∀ (rs : List String) (cfg : PermissionsConfig) (d : String)
      (m : Json) (s : String),
      parseMCPMessage d = some m →
      m.getField "method" = some (Json.str s) →
      s ≠ "" →
      (isMethodAllowed s rs cfg = true →
        createMessageFilter rs (some cfg) d =
          { allowed := true, filteredData := some d })
      ∧ (isMethodAllowed s rs cfg = false →
        createMessageFilter rs (some cfg) d =
          { allowed := false,
            response := some (createErrorResponse (m.getField "id")
              ("Access denied for method \x27" ++ s ++ "\x27")) }) := by
  intro rs cfg d m s hp hm hs
  have ht2 : optTruthy (some (Json.str s)) = true := by
    simp [optTruthy, jsTruthy, hs]
  constructor
  · intro hall
    have hj2 : isMethodAllowedJson (Json.str s) rs cfg = true := by
      rw [isMethodAllowedJson_str]; exact hall
    simp [createMessageFilter, hp, hm, ht2, hj2]
  · intro hall
    have hj2 : isMethodAllowedJson (Json.str s) rs cfg = false := by
      rw [isMethodAllowedJson_str]; exact hall
    simp [createMessageFilter, hp, hm, ht2, hj2, jsDisplay]

/-- Witness for claim C2: the section 8 scenario.  Role user sending
tools/call is denied with exactly the expected wire bytes, whose parse
deep-equals the expected error object; sending tools/list passes the chunk
through byte-identical. -/
theorem filter_method_decision_witness :
    createMessageFilter ["user"] (some scenarioConfig) chunkCall =
      { allowed := false, response := some deniedResponse }
    ∧ jsonParse deniedResponse = some deniedResponseObj
    ∧ createMessageFilter ["user"] (some scenarioConfig) chunkList =
      { allowed := true, filteredData := some chunkList } := by
  refine ⟨?_, by rfl, ?_⟩
  · have h := (filter_method_decision ["user"] scenarioConfig chunkCall msgCall
      "tools/call" rfl rfl (by decide)).2 (by rfl)
    exact h.trans (by rfl)
  · exact (filter_method_decision ["user"] scenarioConfig chunkList msgList
      "tools/list" rfl rfl (by decide)).1 (by rfl)

/-! Claim C6. -/

/-- createErrorResponse as claim C6 describes it: the id field is id ?? null,
so every present id — including 0 and the empty string — is echoed. -/
def createErrorResponseSpec (id : Option Json) (reason : String) : String :=
  stringify (Json.obj
    [("jsonrpc", .str "2.0"),
     ("id", id.getD Json.null),
     ("error", .obj
       [("code", .num "-32601"),
        ("message", .str ("Method not allowed: " ++ reason))])]) ++ "\n"

/-- createErrorResponse as the code actually behaves (the amendment of claim
C6): a falsy id — absent, 0, or the empty string — maps to null, any other id
is echoed; the rest of the object is as the claim states. -/
def createErrorResponseAmendedSpec (id : Option Json) (reason : String) : String :=
  stringify (Json.obj
    [("jsonrpc", .str "2.0"),
     ("id", match id with
            | some v => if jsTruthy v then v else Json.null
            | none => Json.null),
     ("error", .obj
       [("code", .num "-32601"),
        ("message", .str ("Method not allowed: " ++ reason))])]) ++ "\n"

/-- Counterexample to claim C6 as stated: at the present id 0 the produced
response carries id null, not the supplied id, because the source computes
id || null rather than id ?? null. -/
theorem createErrorResponse_id_zero_counterexample :
    createErrorResponse (some (Json.num "0")) "Access denied" ≠
      createErrorResponseSpec (some (Json.num "0")) "Access denied"
    ∧ createErrorResponse (some (Json.num "0")) "Access denied" =
      "\x7b\"jsonrpc\":\"2.0\",\"id\":null,\"error\":\x7b\"code\":-32601,\"message\":\"Method not allowed: Access denied\"\x7d\x7d\n"
    ∧ createErrorResponseSpec (some (Json.num "0")) "Access denied" =
      "\x7b\"jsonrpc\":\"2.0\",\"id\":0,\"error\":\x7b\"code\":-32601,\"message\":\"Method not allowed: Access denied\"\x7d\x7d\n" :=
  ⟨by decide, rfl, rfl⟩

/-- Claim C6 (amended): createErrorResponse produces exactly the JSON-RPC
object with jsonrpc "2.0", id equal to the supplied id when that id is truthy
and null otherwise (absent, 0 and "" map to null), and the -32601 error with
message "Method not allowed: " followed by the reason, serialized and
newline-terminated; concretely a string id, a non-zero numeric id and an
absent id produce the expected wire bytes. -/
theorem createErrorResponse_amended :
    (∀ (id : Option Json) (reason : String),
        createErrorResponse id reason = createErrorResponseAmendedSpec id reason)
    ∧ createErrorResponse (some (Json.str "test-id")) "Access denied" =
      "\x7b\"jsonrpc\":\"2.0\",\"id\":\"test-id\",\"error\":\x7b\"code\":-32601,\"message\":\"Method not allowed: Access denied\"\x7d\x7d\n"
    ∧ createErrorResponse (some (Json.num "123")) "Access denied" =
      "\x7b\"jsonrpc\":\"2.0\",\"id\":123,\"error\":\x7b\"code\":-32601,\"message\":\"Method not allowed: Access denied\"\x7d\x7d\n"
    ∧ createErrorResponse none "Access denied" =
      "\x7b\"jsonrpc\":\"2.0\",\"id\":null,\"error\":\x7b\"code\":-32601,\"message\":\"Method not allowed: Access denied\"\x7d\x7d\n" := by
  refine ⟨?_, rfl, rfl, rfl⟩
  intro id reason
  unfold createErrorResponse createErrorResponseAmendedSpec
  cases id with
  | none => rfl
  | some v => by_cases hv : jsTruthy v = true <;> simp [hv]

/-! Claim C9. -/

/-- Claim C9: with a permissions path configured, startup either exits with
code 1 or runs with a loaded config — never with the open (null-config)
policy; in particular a missing file and any contents that fail to parse as
JSON both exit with code 1. -/
theorem startup_requires_loadable_permissions :
    (∀ (fileContents : Option String),
        startupLoadPermissions true fileContents = .exited 1
          ∨ ∃ cfg, startupLoadPermissions true fileContents = .running (some cfg))
    ∧ startupLoadPermissions true none = .exited 1
    ∧ (∀ s : String, jsonParse s = none →
        startupLoadPermissions true (some s) = .exited 1) := by
  refine ⟨?_, rfl, ?_⟩
  · intro fc
    cases h : loadPermissionsConfig fc with
    | none => exact Or.inl (by simp [startupLoadPermissions, h])
    | some cfg => exact Or.inr ⟨cfg, by simp [startupLoadPermissions, h]⟩
  · intro s h
    simp [startupLoadPermissions, loadPermissionsConfig, h]

/-- Witness for claim C9: the malformed contents of the repository's own unit
test make startup exit with code 1. -/
theorem startup_requires_loadable_permissions_witness :
    startupLoadPermissions true (some "invalid json") = .exited 1 :=
  startup_requires_loadable_permissions.2.2 "invalid json" rfl

/-! Claim C10. -/

/-- Claim C10: a chunk in which no line parses as a single jsonrpc-"2.0"
object is forwarded unmodified under every role list and config; concretely a
jsonrpc-"1.0" request naming the blocked method tools/call, and a JSON-RPC
batch array wrapping the same blocked request, both pass through for role
user under the section 8 config even though isMethodAllowed denies
tools/call for that role. -/
theorem filter_unframed_passthrough :
    (∀ (rs : List String) (cfg : Option PermissionsConfig) (d : String),
        parseMCPMessage d = none →
        createMessageFilter rs cfg d = { allowed := true, filteredData := some d })
    ∧ parseMCPMessage chunk10 = none
    ∧ parseMCPMessage chunkBatch = none
    ∧ isMethodAllowed "tools/call" ["user"] scenarioConfig = false
    ∧ createMessageFilter ["user"] (some scenarioConfig) chunk10 =
        { allowed := true, filteredData := some chunk10 }
    ∧ createMessageFilter ["user"] (some scenarioConfig) chunkBatch =
        { allowed := true, filteredData := some chunkBatch } := by
  refine ⟨?_, rfl, rfl, rfl, rfl, rfl⟩
  intro rs cfg d h
  cases cfg with
  | none => rfl
  | some c => simp [createMessageFilter, h]

/-- Witness for claim C10 at a further concrete instance. -/
theorem filter_unframed_passthrough_witness :
    createMessageFilter ["admin"] (some scenarioConfig) chunk10 =
      { allowed := true, filteredData := some chunk10 } :=
  filter_unframed_passthrough.1 ["admin"] (some scenarioConfig) chunk10 rfl

/-! Claim C4. -/

/-- Parsed form of the -32003 authentication-timeout signal. -/
def authTimeoutObj : Json :=
  .obj [("jsonrpc", .str "2.0"),
        ("error", .obj
          [("code", .num "-32003"),
           ("message", .str "Authentication timeout"),
           ("data", .obj [("timeout", .str "10 seconds")])])]

/-- Counterexample to claim C4 as stated: a TCP session on a JWT-secured
server that never sends a credential is still open 60 seconds after accept —
six times the claimed bound — with nothing sent to it; when the idle timer
finally closes it at 300000 ms, no -32003 authentication-timeout signal has
ever been emitted. -/
theorem tcp_auth_timeout_counterexample :
    noCredentialOutcome (tcpConnectTimers true) 60000 =
      { closed := false, sent := [] }
    ∧ noCredentialOutcome (tcpConnectTimers true) 299999 =
      { closed := false, sent := [] }
    ∧ noCredentialOutcome (tcpConnectTimers true) 300000 =
      { closed := true, sent := [] } :=
  ⟨rfl, rfl, rfl⟩

/-- Claim C4 (amended): only WebSocket sessions carry the authentication
timeout — with a JWT secret configured, a WebSocket session that receives no
credential is closed exactly once 10000 ms have elapsed, with the -32003
authentication-timeout signal, while a TCP session in the same situation has
no authentication timer at all and is only destroyed silently by the
300000 ms idle timeout.  The pending WebSocket timer firing on the initial
session state sends the signal and closes. -/
theorem auth_timeout_ws_only :
    (∀ t : Nat, 10000 ≤ t →
        noCredentialOutcome (wsConnectTimers true) t =
          { closed := true, sent := [authTimeoutMessage] })
    ∧ (∀ t : Nat, t < 10000 →
        noCredentialOutcome (wsConnectTimers true) t =
          { closed := false, sent := [] })
    ∧ (∀ t : Nat, t < 300000 →
        noCredentialOutcome (tcpConnectTimers true) t =
          { closed := false, sent := [] })
    ∧ (∀ t : Nat, 300000 ≤ t →
        noCredentialOutcome (tcpConnectTimers true) t =
          { closed := true, sent := [] })
    ∧ jsonParse authTimeoutMessage = some authTimeoutObj
    ∧ wsTimerFire wsInitialSession =
        ({ wsInitialSession with
            authTimerPending := false
            closed := true },
         [.send authTimeoutMessage, .close]) := by
  refine ⟨?_, ?_, ?_, ?_, rfl, rfl⟩
  · intro t h
    simp [noCredentialOutcome, wsConnectTimers, runTimerAction, h]
  · intro t h
    have h2 : ¬ (10000 : Nat) ≤ t := by omega
    simp [noCredentialOutcome, wsConnectTimers, h2]
  · intro t h
    have h2 : ¬ (300000 : Nat) ≤ t := by omega
    simp [noCredentialOutcome, tcpConnectTimers, h2]
  · intro t h
    simp [noCredentialOutcome, tcpConnectTimers, runTimerAction, h]

/-- Witness for claim C4 at the 10-second mark: the WebSocket session is
closed with the timeout signal while the TCP session is untouched. -/
theorem auth_timeout_ws_only_witness :
    noCredentialOutcome (wsConnectTimers true) 10000 =
      { closed := true, sent := [authTimeoutMessage] }
    ∧ noCredentialOutcome (tcpConnectTimers true) 10000 =
      { closed := false, sent := [] } :=
  ⟨auth_timeout_ws_only.1 10000 (by decide),
   auth_timeout_ws_only.2.2.1 10000 (by decide)⟩

/-! Claim C8. -/

/-- Authenticated WebSocket session of the witness: roles user, timer
cleared, socket open. -/
def authedSession : WsSession :=
  { isAuthenticated := true
    authTimerPending := false
    closed := false
    filterRoles := some ["user"] }

/-- Claim C8: for an authenticated session — over WebSocket as over TCP — a
per-message authorization failure is non-terminal: the handler state is
unchanged (socket not closed, authentication kept, same filter roles), the
denied message produces exactly one send of the synthesized response, and
nothing is forwarded to the subprocess. -/
theorem authorization_failure_nonterminal :
    ∀ (verify : String → Option JWTPayload)
      (requiredRoles : Option (List String)) (roles : List String)
      (cfg : Option PermissionsConfig) (s : WsSession) (st : TcpAuthedSession)
      (msg : String),
      s.isAuthenticated = true →
      ((wsMessageStep verify requiredRoles cfg s msg).1 = s
        ∧ ((createMessageFilter (s.filterRoles.getD []) cfg msg).allowed = false →
            (wsMessageStep verify requiredRoles cfg s msg).2 =
              [WsEffect.send
                ((createMessageFilter (s.filterRoles.getD []) cfg msg).response.getD "")]))
      ∧ ((tcpAuthedDataStep roles cfg st msg).1 = st
        ∧ ((createMessageFilter roles cfg msg).allowed = false →
            (tcpAuthedDataStep roles cfg st msg).2 =
              [WsEffect.send ((createMessageFilter roles cfg msg).response.getD "")])) := by
  intro verify rr roles cfg s st msg hauth
  refine ⟨⟨?_, ?_⟩, ?_, ?_⟩
  · rcases filter_shape (s.filterRoles.getD []) cfg msg with hsh | ⟨r, hsh⟩ <;>
      simp [wsMessageStep, hauth, hsh]
  · intro hd
    rcases filter_shape (s.filterRoles.getD []) cfg msg with hsh | ⟨r, hsh⟩
    · rw [hsh] at hd; simp at hd
    · simp [wsMessageStep, hauth, hsh]
  · rcases filter_shape roles cfg msg with hsh | ⟨r, hsh⟩ <;>
      simp [tcpAuthedDataStep, hsh]
  · intro hd
    rcases filter_shape roles cfg msg with hsh | ⟨r, hsh⟩
    · rw [hsh] at hd; simp at hd
    · simp [tcpAuthedDataStep, hsh]

/-- Witness for claim C8: the authenticated user session receiving the
blocked tools/call request keeps its state and answers with the denial
response only. -/
theorem authorization_failure_nonterminal_witness :
    (wsMessageStep (fun _ => none) none (some scenarioConfig)
        authedSession chunkCall).1 = authedSession
    ∧ (wsMessageStep (fun _ => none) none (some scenarioConfig)
        authedSession chunkCall).2 = [WsEffect.send deniedResponse] := by
  have h := authorization_failure_nonterminal (fun _ => none) none ["user"]
    (some scenarioConfig) authedSession ⟨false⟩ chunkCall rfl
  exact ⟨h.1.1, (h.1.2 (by rfl)).trans (by rfl)⟩

end MCPProxy
